import Mathlib

/-!
Shallow embedding of `src/api/index.py` (eshopco-latency): a single FastAPI
endpoint `get_latency_metrics` that aggregates latency/uptime telemetry
records by region.  Python numbers are modelled by `ℚ`, the module-level
`telemetry_data` list by a `List TelemetryRecord` parameter, and the Python
dict `response_data` by an association list built in insertion order.
-/

set_option autoImplicit false

namespace EshopcoLatency

/-- One record of the telemetry snapshot (a JSON object with keys
`region`, `latency_ms`, `uptime_pct`). -/
structure TelemetryRecord where
  region : String
  latency_ms : ℚ
  uptime_pct : ℚ
deriving DecidableEq

/-- Embedding of the pydantic request model `TelemetryRequest`
(`regions: List[str]`, `threshold_ms: int`); `threshold_ms` is `ℤ` because
the source declares the field as `int`. -/
structure TelemetryRequest where
  regions : List String
  threshold_ms : ℤ
deriving DecidableEq

/-- The per-region metrics object assembled at lines 100-105 of the source. -/
structure RegionMetrics where
  avg_latency : ℚ
  p95_latency : ℚ
  avg_uptime : ℚ
  breaches : ℕ
deriving DecidableEq

/-- `np.mean`: arithmetic mean, sum divided by length. -/
def np_mean (l : List ℚ) : ℚ :=
  l.sum / (l.length : ℚ)

/-- Insertion step of an ascending sort. -/
def insertQ (x : ℚ) : List ℚ → List ℚ
  | [] => [x]
  | y :: ys => if x ≤ y then x :: y :: ys else y :: insertQ x ys

/-- Ascending sort of the latency values, as `np.percentile` performs
internally. -/
def sortQ : List ℚ → List ℚ
  | [] => []
  | x :: xs => insertQ x (sortQ xs)

/-- `np.percentile(l, 95)` with the default linear interpolation method:
sort the values, take the virtual index `0.95 * (n - 1)`, and linearly
interpolate between the values at the floor and the ceiling of that index. -/
def percentile95 (l : List ℚ) : ℚ :=
  let s := sortQ l
  let i : ℚ := (95 / 100 : ℚ) * ((s.length : ℚ) - 1)
  let lo := (⌊i⌋).toNat
  let hi := (⌈i⌉).toNat
  let a := s.getD lo 0
  let b := s.getD hi 0
  a + (i - (⌊i⌋ : ℚ)) * (b - a)

/-- Line 87 of the source: the list comprehension filtering the snapshot to
the records whose `region` field equals the requested region. -/
def region_data (telemetry_data : List TelemetryRecord) (region : String) :
    List TelemetryRecord :=
  telemetry_data.filter (fun r => r.region = region)

/-- Lines 92-104 of the source: the metrics computed for one non-empty
filtered record set. -/
def computeMetrics (rd : List TelemetryRecord) (threshold_ms : ℤ) : RegionMetrics :=
  let latencies := rd.map (fun r => r.latency_ms)
  let uptimes := rd.map (fun r => r.uptime_pct)
  ⟨np_mean latencies,
   percentile95 latencies,
   np_mean uptimes,
   latencies.countP (fun lat => decide ((threshold_ms : ℚ) < lat))⟩

/-- Assignment `response_data[region] = {...}` on a Python dict: replace the
value of an existing key in place, otherwise append the new key at the end
(Python dicts keep insertion order). -/
def dictInsert (k : String) (v : RegionMetrics) :
    List (String × RegionMetrics) → List (String × RegionMetrics)
  | [] => [(k, v)]
  | (k', v') :: rest =>
      if k' = k then (k, v) :: rest else (k', v') :: dictInsert k v rest

/-- Python dict read: the value stored under key `k`, if any. -/
def dictLookup (k : String) : List (String × RegionMetrics) → Option RegionMetrics
  | [] => none
  | (k', v) :: rest => if k' = k then some v else dictLookup k rest

/-- Number of entries of the association list carrying key `k`. -/
def countKey (k : String) (l : List (String × RegionMetrics)) : ℕ :=
  l.countP (fun p => decide (p.1 = k))

/-- Lines 86-105 of the source: the `for region in request.regions` loop,
threading the accumulating `response_data` dict. -/
def computeLoop (telemetry_data : List TelemetryRecord) (threshold_ms : ℤ) :
    List String → List (String × RegionMetrics) → List (String × RegionMetrics)
  | [], response_data => response_data
  | region :: rest, response_data =>
      let rd := region_data telemetry_data region
      if rd = [] then
        computeLoop telemetry_data threshold_ms rest response_data
      else
        computeLoop telemetry_data threshold_ms rest
          (dictInsert region (computeMetrics rd threshold_ms) response_data)

/-- The body-level response of the endpoint: either the error-shaped payload
of line 84 or the per-region metrics map. -/
inductive ApiResponse where
  | error (msg : String)
  | metrics (m : List (String × RegionMetrics))
deriving DecidableEq

/-- Lines 75-107 of the source in state-passing form: the handler reads the
module-level `telemetry_data` "state" and returns the response along with
the state it leaves behind (the handler never assigns the global, so the
state passes through unchanged). -/
def get_latency_metrics_run (telemetry_data : List TelemetryRecord)
    (request : TelemetryRequest) : ApiResponse × List TelemetryRecord :=
  if telemetry_data = [] then
    (ApiResponse.error "Telemetry data file not found or is empty.", telemetry_data)
  else
    (ApiResponse.metrics (computeLoop telemetry_data request.threshold_ms request.regions []),
     telemetry_data)

/-- The endpoint `get_latency_metrics` as a function of the snapshot and the
validated request. -/
def get_latency_metrics (telemetry_data : List TelemetryRecord)
    (request : TelemetryRequest) : ApiResponse :=
  (get_latency_metrics_run telemetry_data request).1

/-- Whether the response carries a per-region entry for `region` (the error
payload carries none). -/
def hasRegionKey (resp : ApiResponse) (region : String) : Bool :=
  match resp with
  | .error _ => false
  | .metrics m => (dictLookup region m).isSome

/-- Embedding of pydantic validation for the `threshold_ms : int` field of
`TelemetryRequest`: a numeric JSON input is accepted (and read as the
integer it denotes) exactly when it has no fractional part, and rejected
otherwise. -/
def validate_threshold_ms (x : ℚ) : Option ℤ :=
  if x.den = 1 then some x.num else none

/-- Outcome of the startup `try` block at lines 25-28: opening and parsing
the backing JSON file either succeeds, fails with `FileNotFoundError`, or
fails with some other exception (e.g. `json.JSONDecodeError` on a malformed
file). -/
inductive LoadOutcome where
  | ok (data : List TelemetryRecord)
  | fileNotFound
  | parseError
deriving DecidableEq

/-- Lines 25-30 of the source: the `try/except` around data loading. Only
`FileNotFoundError` is caught (yielding the empty snapshot); any other
exception propagates out of module initialization, modelled as `.error`. -/
def loadTelemetry : LoadOutcome → Except String (List TelemetryRecord)
  | .ok data => .ok data
  | .fileNotFound => .ok []
  | .parseError => .error "json.JSONDecodeError"

/-- The example snapshot of the specification, used to instantiate theorems
at concrete inputs. -/
def snap1 : List TelemetryRecord :=
  [⟨"amer", 100, 999 / 10⟩, ⟨"amer", 200, 995 / 10⟩, ⟨"apac", 150, 99⟩]

/-! ### Helper lemmas -/

/-- The 95th percentile of a one-element list is that element. -/
theorem percentile95_singleton (q : ℚ) : percentile95 [q] = q := by
  simp only [percentile95, sortQ, insertQ]
  norm_num

/-- Looking a key up after a dict assignment. -/
theorem dictLookup_dictInsert (k k' : String) (v : RegionMetrics)
    (l : List (String × RegionMetrics)) :
    dictLookup k (dictInsert k' v l) =
      if k' = k then some v else dictLookup k l := by
  induction l with
  | nil => simp [dictInsert, dictLookup]
  | cons hd tl ih =>
      obtain ⟨a, b⟩ := hd
      by_cases hak : a = k' <;> by_cases hkk : k' = k <;>
        simp_all [dictInsert, dictLookup]

/-- Membership after a dict assignment. -/
theorem mem_dictInsert (p : String × RegionMetrics) (k : String) (v : RegionMetrics)
    (l : List (String × RegionMetrics)) :
    p ∈ dictInsert k v l → p = (k, v) ∨ p ∈ l := by
  induction l with
  | nil =>
      intro h
      simpa [dictInsert] using h
  | cons hd tl ih =>
      obtain ⟨a, b⟩ := hd
      intro h
      by_cases hak : a = k
      · simp only [dictInsert, if_pos hak, List.mem_cons] at h
        rcases h with h | h
        · exact Or.inl h
        · exact Or.inr (List.mem_cons_of_mem _ h)
      · simp only [dictInsert, if_neg hak, List.mem_cons] at h
        rcases h with h | h
        · exact Or.inr (by simp [h])
        · rcases ih h with h' | h'
          · exact Or.inl h'
          · exact Or.inr (List.mem_cons_of_mem _ h')

/-- Keys present after a dict assignment. -/
theorem mem_keys_dictInsert (x k : String) (v : RegionMetrics)
    (l : List (String × RegionMetrics)) :
    x ∈ (dictInsert k v l).map Prod.fst ↔ x = k ∨ x ∈ l.map Prod.fst := by
  induction l with
  | nil => simp [dictInsert, eq_comm]
  | cons hd tl ih =>
      obtain ⟨a, b⟩ := hd
      by_cases hak : a = k
      · simp [dictInsert, hak, ih]
      · simp [dictInsert, hak, ih]
        tauto

/-- Dict assignment preserves distinctness of the keys. -/
theorem nodup_dictInsert (k : String) (v : RegionMetrics)
    (l : List (String × RegionMetrics)) (h : (l.map Prod.fst).Nodup) :
    ((dictInsert k v l).map Prod.fst).Nodup := by
  induction l with
  | nil => simp [dictInsert]
  | cons hd tl ih =>
      obtain ⟨a, b⟩ := hd
      simp only [List.map_cons, List.nodup_cons] at h
      by_cases hak : a = k
      · simpa [dictInsert, hak] using h
      · simp only [dictInsert, if_neg hak, List.map_cons, List.nodup_cons,
          mem_keys_dictInsert]
        exact ⟨by tauto, ih h.2⟩

/-- A key that is absent from the key list is not found. -/
theorem dictLookup_eq_none_of_not_mem (k : String)
    (l : List (String × RegionMetrics)) (h : k ∉ l.map Prod.fst) :
    dictLookup k l = none := by
  induction l with
  | nil => rfl
  | cons hd tl ih =>
      obtain ⟨a, b⟩ := hd
      simp only [List.map_cons, List.mem_cons, not_or] at h
      simp [dictLookup, fun hak : a = k => h.1 hak.symm, ih h.2]
      intro hak
      exact absurd hak.symm h.1

/-- With distinct keys, the number of entries under a key is one or zero
according to whether the key is present. -/
theorem countKey_of_nodup (k : String) (l : List (String × RegionMetrics))
    (h : (l.map Prod.fst).Nodup) :
    countKey k l = if (dictLookup k l).isSome then 1 else 0 := by
  induction l with
  | nil => rfl
  | cons hd tl ih =>
      obtain ⟨a, b⟩ := hd
      simp only [List.map_cons, List.nodup_cons] at h
      by_cases hak : a = k
      · have hnone : dictLookup k tl = none :=
          dictLookup_eq_none_of_not_mem k tl (hak ▸ h.1)
        have hcnt : countKey k tl = 0 := by
          have h0 := ih h.2
          rw [hnone] at h0
          simpa using h0
        have hc : countKey k ((a, b) :: tl) = 1 + countKey k tl := by
          simp [countKey, List.countP_cons, hak]
          omega
        rw [hc, hcnt]
        simp [dictLookup, hak]
      · have h0 := ih h.2
        have hc : countKey k ((a, b) :: tl) = countKey k tl := by
          simp [countKey, List.countP_cons, hak]
        rw [hc, h0]
        simp [dictLookup, hak]

/-- The filtered record set is non-empty exactly when some record of the
snapshot carries the region. -/
theorem region_data_ne_nil_iff (s : List TelemetryRecord) (region : String) :
    region_data s region ≠ [] ↔ ∃ r ∈ s, r.region = region := by
  rw [Ne, region_data, List.filter_eq_nil_iff]
  push_neg
  simp

/-- The final value of `response_data[k]` after the request loop: the key is
bound exactly when `k` was requested and has matching records, and then it
holds the metrics of its filtered record set. -/
theorem dictLookup_computeLoop (s : List TelemetryRecord) (t : ℤ) :
    ∀ (regions : List String) (acc : List (String × RegionMetrics)) (k : String),
      dictLookup k (computeLoop s t regions acc) =
        if k ∈ regions ∧ region_data s k ≠ [] then
          some (computeMetrics (region_data s k) t)
        else dictLookup k acc := by
  intro regions
  induction regions with
  | nil => simp [computeLoop]
  | cons region rest ih =>
      intro acc k
      simp only [computeLoop]
      by_cases hrd : region_data s region = []
      · rw [if_pos hrd, ih]
        by_cases hk : k = region
        · subst hk
          simp [hrd]
        · simp [List.mem_cons, hk]
      · rw [if_neg hrd, ih, dictLookup_dictInsert]
        by_cases hk : region = k
        · subst hk
          simp [hrd]
        · simp only [List.mem_cons, if_neg hk]
          have : (k = region ∨ k ∈ rest) ∧ region_data s k ≠ [] ↔
              k ∈ rest ∧ region_data s k ≠ [] := by
            constructor
            · rintro ⟨hor, hne⟩
              rcases hor with h | h
              · exact absurd h.symm hk
              · exact ⟨h, hne⟩
            · rintro ⟨hmem, hne⟩
              exact ⟨Or.inr hmem, hne⟩
          rw [if_congr this rfl rfl]

/-- Every entry of the response dict either survives from the accumulator or
belongs to a requested region with matching records. -/
theorem mem_computeLoop (s : List TelemetryRecord) (t : ℤ) :
    ∀ (regions : List String) (acc : List (String × RegionMetrics))
      (p : String × RegionMetrics),
      p ∈ computeLoop s t regions acc →
        p ∈ acc ∨ (p.1 ∈ regions ∧ region_data s p.1 ≠ []) := by
  intro regions
  induction regions with
  | nil =>
      intro acc p hp
      exact Or.inl hp
  | cons region rest ih =>
      intro acc p hp
      simp only [computeLoop] at hp
      by_cases hrd : region_data s region = []
      · rw [if_pos hrd] at hp
        rcases ih acc p hp with h | h
        · exact Or.inl h
        · exact Or.inr ⟨List.mem_cons_of_mem _ h.1, h.2⟩
      · rw [if_neg hrd] at hp
        rcases ih _ p hp with h | h
        · rcases mem_dictInsert p region (computeMetrics (region_data s region) t) acc h with
            h' | h'
          · refine Or.inr ⟨?_, ?_⟩
            · rw [h']
              exact List.mem_cons_self _ _
            · rw [h']
              exact hrd
          · exact Or.inl h'
        · exact Or.inr ⟨List.mem_cons_of_mem _ h.1, h.2⟩

/-- The request loop preserves distinctness of the response dict keys. -/
theorem nodup_computeLoop (s : List TelemetryRecord) (t : ℤ) :
    ∀ (regions : List String) (acc : List (String × RegionMetrics)),
      (acc.map Prod.fst).Nodup →
      ((computeLoop s t regions acc).map Prod.fst).Nodup := by
  intro regions
  induction regions with
  | nil =>
      intro acc h
      exact h
  | cons region rest ih =>
      intro acc h
      simp only [computeLoop]
      by_cases hrd : region_data s region = []
      · rw [if_pos hrd]
        exact ih acc h
      · rw [if_neg hrd]
        exact ih _ (nodup_dictInsert _ _ _ h)

/-- On a non-empty snapshot the endpoint returns the metrics map built by
the request loop. -/
theorem get_latency_metrics_of_ne_nil (s : List TelemetryRecord)
    (req : TelemetryRequest) (h : s ≠ []) :
    get_latency_metrics s req =
      ApiResponse.metrics (computeLoop s req.threshold_ms req.regions []) := by
  simp [get_latency_metrics, get_latency_metrics_run, h]

/-- A non-empty filtered record set forces a non-empty snapshot. -/
theorem snapshot_ne_nil_of_region_data (s : List TelemetryRecord) (region : String)
    (h : region_data s region ≠ []) : s ≠ [] := by
  intro hs
  subst hs
  exact h rfl

/-- The number of entries the response dict holds under a requested key. -/
theorem countKey_computeLoop (s : List TelemetryRecord) (t : ℤ)
    (regions : List String) (k : String) :
    countKey k (computeLoop s t regions []) =
      if k ∈ regions ∧ region_data s k ≠ [] then 1 else 0 := by
  rw [countKey_of_nodup k _ (nodup_computeLoop s t regions [] (by simp)),
    dictLookup_computeLoop]
  by_cases h : k ∈ regions ∧ region_data s k ≠ []
  · simp [h]
  · simp [h, dictLookup]

/-! ### Claims -/

/-- Claim C1: for every requested region with at least one matching record in
the snapshot, the returned `p95_latency` equals the 95th percentile of the
matching latencies computed by linear interpolation between closest ranks
(sort the latencies, take the virtual index `0.95 * (n - 1)`, and
interpolate linearly between the values at the floor and the ceiling of
that index); for a region with exactly one matching record, `p95_latency`
equals that record's latency exactly. -/
theorem C1_p95_linear_interpolation (s : List TelemetryRecord)
    (req : TelemetryRequest) (region : String)
    (h1 : region ∈ req.regions) (h2 : region_data s region ≠ []) :
    ∃ m v, get_latency_metrics s req = ApiResponse.metrics m ∧
      dictLookup region m = some v ∧
      v.p95_latency = percentile95 ((region_data s region).map (fun r => r.latency_ms)) ∧
      v.p95_latency =
        (let ss := sortQ ((region_data s region).map (fun r => r.latency_ms))
         let i : ℚ := (95 / 100 : ℚ) * ((ss.length : ℚ) - 1)
         ss.getD (⌊i⌋).toNat 0 +
           (i - (⌊i⌋ : ℚ)) * (ss.getD (⌈i⌉).toNat 0 - ss.getD (⌊i⌋).toNat 0)) ∧
      (∀ x, region_data s region = [x] → v.p95_latency = x.latency_ms) := by
  refine ⟨computeLoop s req.threshold_ms req.regions [],
    computeMetrics (region_data s region) req.threshold_ms,
    get_latency_metrics_of_ne_nil s req (snapshot_ne_nil_of_region_data s region h2),
    ?_, rfl, rfl, ?_⟩
  · rw [dictLookup_computeLoop]
    simp [h1, h2]
  · intro x hx
    show (computeMetrics (region_data s region) req.threshold_ms).p95_latency = x.latency_ms
    rw [show (computeMetrics (region_data s region) req.threshold_ms).p95_latency =
        percentile95 ((region_data s region).map (fun r => r.latency_ms)) from rfl, hx]
    exact percentile95_singleton _

/-- Witness for C1 at the specification's example snapshot. -/
theorem C1_p95_witness :
    ("amer" : String) ∈ (⟨["amer", "apac", "emea"], 150⟩ : TelemetryRequest).regions ∧
    region_data snap1 "amer" ≠ [] ∧
    (∃ m v, get_latency_metrics snap1 ⟨["amer", "apac", "emea"], 150⟩ =
        ApiResponse.metrics m ∧
      dictLookup "amer" m = some v ∧
      v.p95_latency = percentile95 ((region_data snap1 "amer").map (fun r => r.latency_ms))) := by
  refine ⟨by decide, by decide, ?_⟩
  obtain ⟨m, v, hm, hv, hp, -, -⟩ :=
    C1_p95_linear_interpolation snap1 ⟨["amer", "apac", "emea"], 150⟩ "amer"
      (by decide) (by decide)
  exact ⟨m, v, hm, hv, hp⟩

/-- Claim C2: for every requested region with at least one matching record,
the returned `avg_latency` is the arithmetic mean of the matching
`latency_ms` values and the returned `avg_uptime` is the arithmetic mean of
the matching `uptime_pct` values. -/
theorem C2_averages_are_arithmetic_means (s : List TelemetryRecord)
    (req : TelemetryRequest) (region : String)
    (h1 : region ∈ req.regions) (h2 : region_data s region ≠ []) :
    ∃ m v, get_latency_metrics s req = ApiResponse.metrics m ∧
      dictLookup region m = some v ∧
      v.avg_latency = ((region_data s region).map (fun r => r.latency_ms)).sum /
        ((((region_data s region).map (fun r => r.latency_ms)).length : ℚ)) ∧
      v.avg_uptime = ((region_data s region).map (fun r => r.uptime_pct)).sum /
        ((((region_data s region).map (fun r => r.uptime_pct)).length : ℚ)) := by
  refine ⟨computeLoop s req.threshold_ms req.regions [],
    computeMetrics (region_data s region) req.threshold_ms,
    get_latency_metrics_of_ne_nil s req (snapshot_ne_nil_of_region_data s region h2),
    ?_, rfl, rfl⟩
  rw [dictLookup_computeLoop]
  simp [h1, h2]

/-- Witness for C2 at the specification's example snapshot. -/
theorem C2_averages_witness :
    ("apac" : String) ∈ (⟨["apac"], 150⟩ : TelemetryRequest).regions ∧
    region_data snap1 "apac" ≠ [] ∧
    (∃ m v, get_latency_metrics snap1 ⟨["apac"], 150⟩ = ApiResponse.metrics m ∧
      dictLookup "apac" m = some v ∧
      v.avg_latency = ((region_data snap1 "apac").map (fun r => r.latency_ms)).sum /
        ((((region_data snap1 "apac").map (fun r => r.latency_ms)).length : ℚ))) := by
  refine ⟨by decide, by decide, ?_⟩
  obtain ⟨m, v, hm, hv, ha, -⟩ :=
    C2_averages_are_arithmetic_means snap1 ⟨["apac"], 150⟩ "apac" (by decide) (by decide)
  exact ⟨m, v, hm, hv, ha⟩

/-- Claim C3: for every requested region with at least one matching record
and every threshold, the returned `breaches` equals the number of matching
records whose `latency_ms` strictly exceeds `threshold_ms`; a record whose
`latency_ms` equals `threshold_ms` is never counted. -/
theorem C3_breaches_strict_exceedances (s : List TelemetryRecord)
    (req : TelemetryRequest) (region : String)
    (h1 : region ∈ req.regions) (h2 : region_data s region ≠ []) :
    ∃ m v, get_latency_metrics s req = ApiResponse.metrics m ∧
      dictLookup region m = some v ∧
      v.breaches = ((region_data s region).map (fun r => r.latency_ms)).countP
        (fun lat => decide ((req.threshold_ms : ℚ) < lat)) ∧
      v.breaches ≤ ((region_data s region).map (fun r => r.latency_ms)).countP
        (fun lat => decide (¬ lat = (req.threshold_ms : ℚ))) := by
  refine ⟨computeLoop s req.threshold_ms req.regions [],
    computeMetrics (region_data s region) req.threshold_ms,
    get_latency_metrics_of_ne_nil s req (snapshot_ne_nil_of_region_data s region h2),
    ?_, rfl, ?_⟩
  · rw [dictLookup_computeLoop]
    simp [h1, h2]
  · show ((region_data s region).map (fun r => r.latency_ms)).countP
        (fun lat => decide ((req.threshold_ms : ℚ) < lat)) ≤ _
    refine List.countP_mono_left ?_
    intro x _ hx
    simp only [decide_eq_true_eq] at hx ⊢
    exact ne_of_gt hx

/-- Witness for C3 at the specification's example snapshot. -/
theorem C3_breaches_witness :
    ("apac" : String) ∈ (⟨["apac"], 150⟩ : TelemetryRequest).regions ∧
    region_data snap1 "apac" ≠ [] ∧
    (∃ m v, get_latency_metrics snap1 ⟨["apac"], 150⟩ = ApiResponse.metrics m ∧
      dictLookup "apac" m = some v ∧
      v.breaches = ((region_data snap1 "apac").map (fun r => r.latency_ms)).countP
        (fun lat => decide (((150 : ℤ) : ℚ) < lat))) := by
  refine ⟨by decide, by decide, ?_⟩
  obtain ⟨m, v, hm, hv, hb, -⟩ :=
    C3_breaches_strict_exceedances snap1 ⟨["apac"], 150⟩ "apac" (by decide) (by decide)
  exact ⟨m, v, hm, hv, hb⟩

/-- Claim C4: a requested region that matches zero records is silently
omitted: the response carries no per-region entry for it, and on a
non-empty snapshot the endpoint still answers with the (partial) metrics
map rather than any error. -/
theorem C4_zero_match_region_omitted (s : List TelemetryRecord)
    (req : TelemetryRequest) (region : String)
    (h : region_data s region = []) :
    hasRegionKey (get_latency_metrics s req) region = false ∧
    (s ≠ [] → ∃ m, get_latency_metrics s req = ApiResponse.metrics m) := by
  constructor
  · by_cases hs : s = []
    · subst hs
      simp [get_latency_metrics, get_latency_metrics_run, hasRegionKey]
    · rw [get_latency_metrics_of_ne_nil s req hs]
      show (dictLookup region (computeLoop s req.threshold_ms req.regions [])).isSome = false
      rw [dictLookup_computeLoop]
      simp [h, dictLookup]
  · intro hs
    exact ⟨_, get_latency_metrics_of_ne_nil s req hs⟩

/-- Witness for C4: requesting the unknown region "emea". -/
theorem C4_zero_match_witness :
    region_data snap1 "emea" = [] ∧
    hasRegionKey (get_latency_metrics snap1 ⟨["amer", "apac", "emea"], 150⟩) "emea" = false := by
  refine ⟨by decide, ?_⟩
  exact (C4_zero_match_region_omitted snap1 ⟨["amer", "apac", "emea"], 150⟩ "emea"
    (by decide)).1

/-- Claim C5: on an empty snapshot the endpoint returns the error-shaped
payload, for every request. -/
theorem C5_empty_snapshot_error_payload (req : TelemetryRequest) :
    get_latency_metrics [] req =
      ApiResponse.error "Telemetry data file not found or is empty." := by
  simp [get_latency_metrics, get_latency_metrics_run]

/-- Counterexample to claim C6 as stated: the regions list `["emea",
"emea"]` names "emea" twice, yet against a snapshot holding only an "amer"
record the result map contains zero entries for "emea", not exactly one. -/
theorem C6_duplicate_region_cex :
    2 ≤ (["emea", "emea"] : List String).count "emea" ∧
    countKey "emea"
      (computeLoop [⟨"amer", 100, 999 / 10⟩] 150 ["emea", "emea"] []) ≠ 1 := by
  decide

/-- Claim C6 (amended): when the regions list names a region more than once,
the result map holds at most one entry for it — exactly one when it has at
least one matching record, none otherwise — and both the entry count and
the stored metrics agree with requesting the region once. -/
theorem C6_duplicate_region_amended (s : List TelemetryRecord)
    (req : TelemetryRequest) (region : String)
    (h : 2 ≤ req.regions.count region) :
    countKey region (computeLoop s req.threshold_ms req.regions []) =
      countKey region (computeLoop s req.threshold_ms [region] []) ∧
    countKey region (computeLoop s req.threshold_ms req.regions []) ≤ 1 ∧
    (region_data s region ≠ [] →
      countKey region (computeLoop s req.threshold_ms req.regions []) = 1) ∧
    (region_data s region = [] →
      countKey region (computeLoop s req.threshold_ms req.regions []) = 0) ∧
    dictLookup region (computeLoop s req.threshold_ms req.regions []) =
      dictLookup region (computeLoop s req.threshold_ms [region] []) := by
  have hmem : region ∈ req.regions := by
    by_contra hc
    simp [List.count_eq_zero_of_not_mem hc] at h
  refine ⟨?_, ?_, ?_, ?_, ?_⟩
  · rw [countKey_computeLoop, countKey_computeLoop]
    simp [hmem]
  · rw [countKey_computeLoop]
    split <;> omega
  · intro hne
    rw [countKey_computeLoop]
    simp [hmem, hne]
  · intro hempty
    rw [countKey_computeLoop]
    simp [hempty]
  · rw [dictLookup_computeLoop, dictLookup_computeLoop]
    simp [hmem]

/-- Witness for the amended C6: requesting "amer" twice yields at most one
entry. -/
theorem C6_duplicate_region_witness :
    2 ≤ (["amer", "amer"] : List String).count "amer" ∧
    countKey "amer" (computeLoop snap1 150 ["amer", "amer"] []) ≤ 1 :=
  ⟨by decide,
   (C6_duplicate_region_amended snap1 ⟨["amer", "amer"], 150⟩ "amer" (by decide)).2.1⟩

/-- Counterexample to claim C7 as stated: the numeric input `305 / 2`
(= 152.5) is rejected by the `threshold_ms : int` field validation, so the
threshold may not be an arbitrary real number. -/
theorem C7_threshold_cex : validate_threshold_ms (305 / 2) = none := by
  have h : ((305 : ℚ) / 2).den ≠ 1 := by norm_num [Rat.den]
  simp [validate_threshold_ms, h]

/-- Claim C7 (amended): `threshold_ms` must be an integral number — every
integer of any magnitude is accepted (no range restriction), and every
number with a fractional part is rejected. -/
theorem C7_threshold_integer_only :
    (∀ z : ℤ, validate_threshold_ms (z : ℚ) = some z) ∧
    (∀ x : ℚ, x.den ≠ 1 → validate_threshold_ms x = none) := by
  constructor
  · intro z
    simp [validate_threshold_ms]
  · intro x hx
    simp [validate_threshold_ms, hx]

/-- Witness for the amended C7 at 152 and 305/2. -/
theorem C7_threshold_witness :
    validate_threshold_ms ((152 : ℤ) : ℚ) = some 152 ∧
    validate_threshold_ms (305 / 2) = none :=
  ⟨C7_threshold_integer_only.1 152,
   C7_threshold_integer_only.2 (305 / 2) (by norm_num [Rat.den])⟩

/-- Claim C8: the aggregation is deterministic and side-effect free — the
handler leaves the snapshot state unchanged, and running it again on the
state it left behind returns the identical response and state. -/
theorem C8_idempotent_and_pure (st : List TelemetryRecord) (req : TelemetryRequest) :
    (get_latency_metrics_run st req).2 = st ∧
    get_latency_metrics_run ((get_latency_metrics_run st req).2) req =
      get_latency_metrics_run st req := by
  by_cases h : st = [] <;> simp [get_latency_metrics_run, h]

/-- Counterexample to claim C9 as stated: a load failure other than
`FileNotFoundError` (here a JSON parse error) is not caught, so module
initialization propagates the exception instead of degrading to the empty
snapshot. -/
theorem C9_load_failure_cex :
    loadTelemetry LoadOutcome.parseError = Except.error "json.JSONDecodeError" := rfl

/-- Claim C9 (amended): a missing backing file degrades to the empty
snapshot (after which the endpoint still serves every request, answering
with the error payload), and a successful load yields its data; only
`FileNotFoundError` is caught. -/
theorem C9_missing_file_degrades (d : List TelemetryRecord) (req : TelemetryRequest) :
    loadTelemetry LoadOutcome.fileNotFound = Except.ok [] ∧
    loadTelemetry (LoadOutcome.ok d) = Except.ok d ∧
    get_latency_metrics [] req =
      ApiResponse.error "Telemetry data file not found or is empty." := by
  refine ⟨rfl, rfl, ?_⟩
  simp [get_latency_metrics, get_latency_metrics_run]

/-- Claim C10: every key of the result map is a requested region with at
least one matching record in the snapshot, and an empty regions list yields
an empty result map. -/
theorem C10_result_keys_invariant (s : List TelemetryRecord) (t : ℤ)
    (regions : List String) :
    (∀ p ∈ computeLoop s t regions [], p.1 ∈ regions ∧ ∃ r ∈ s, r.region = p.1) ∧
    computeLoop s t [] [] = [] ∧
    (∀ req : TelemetryRequest, ∀ m, get_latency_metrics s req = ApiResponse.metrics m →
      ∀ p ∈ m, p.1 ∈ req.regions ∧ ∃ r ∈ s, r.region = p.1) := by
  refine ⟨?_, rfl, ?_⟩
  · intro p hp
    rcases mem_computeLoop s t regions [] p hp with h | h
    · simp at h
    · exact ⟨h.1, (region_data_ne_nil_iff s p.1).1 h.2⟩
  · intro req m hm p hp
    by_cases hs : s = []
    · subst hs
      simp [get_latency_metrics, get_latency_metrics_run] at hm
    · rw [get_latency_metrics_of_ne_nil s req hs] at hm
      injection hm with hm'
      subst hm'
      rcases mem_computeLoop s req.threshold_ms req.regions [] p hp with h | h
      · simp at h
      · exact ⟨h.1, (region_data_ne_nil_iff s p.1).1 h.2⟩

/-- Witness for C10 at the specification's example snapshot. -/
theorem C10_result_keys_witness :
    ("amer" : String) ∈ (["amer"] : List String) ∧ ∃ r ∈ snap1, r.region = "amer" := by
  refine (C10_result_keys_invariant snap1 150 ["amer"]).1
    ("amer", computeMetrics (region_data snap1 "amer") 150) ?_
  show ("amer", computeMetrics (region_data snap1 "amer") 150) ∈
    computeLoop snap1 150 ["amer"] []
  simp [computeLoop, region_data, snap1, dictInsert]

end EshopcoLatency
